import Mathlib

/-!
Shallow embedding of the aggregation-and-recommendation core of the
Cloud Economizer repository.

Modelled source files:
* `cloud_economizer/analysis/analyzer.py` — the category-merge loops of
  `_analyze_aws` / `_analyze_azure` / `_analyze_gcp` (all three loops are
  textually identical) and the `CloudAnalyzer.__init__` result state.
* `cloud_economizer/ai/insight_engine.py` — `InsightEngine.__init__`,
  `enhance_recommendations`, `_generate_basic_recommendations`,
  `_generate_ai_recommendations`, `_calculate_priority`,
  `_get_category_recommendation`, `_assess_risk`, `_assess_effort`.

Python dictionaries are modelled as association lists in insertion order
(Python 3.7+ dicts preserve insertion order); `dict.get(k, d)` is modelled
by `Option` fields with `Option.getD`.  Python numbers are modelled by `Int`
(counts) and `Rat` (savings amounts).  `list.sort(key=..., reverse=True)`
is Timsort, a stable sort; it is modelled by a stable insertion sort on the
same key, which agrees with every stable sort extensionally.
-/

namespace CloudEconomizer

/-- A Finding: one detected optimization opportunity on one resource, as
produced by the provider probes (see spec §3). -/
structure Finding where
  resource_id : String
  resource_type : String
  region : Option String
  issue : String
  remedy : String
  estimated_monthly_savings : Rat
  confidence : Rat
deriving DecidableEq

/-- One category payload inside a provider result map:
`{count, savings, items}` where every key may be missing (the merge loops
read each with `data.get(key, default)`). -/
structure ProviderCategory where
  count : Option Int
  savings : Option Rat
  items : Option (List Finding)
deriving DecidableEq

/-- A provider result map: category name to payload, in Python-dict
iteration (= insertion) order. -/
abbrev ProviderResults := List (String × ProviderCategory)

/-- A Category Bucket accumulated in `self.results['categories']`. -/
structure Bucket where
  count : Int
  savings : Rat
  items : List Finding
deriving DecidableEq

/-- The fresh bucket `{'count': 0, 'savings': 0, 'items': []}` created by
the merge loop for a category not yet present. -/
def freshBucket : Bucket := { count := 0, savings := 0, items := [] }

/-- The category map `self.results['categories']`. -/
abbrev CategoryMap := List (String × Bucket)

/-- First-match association-list lookup, the model of Python dict
indexing / membership. -/
def lookupA {β : Type} : List (String × β) → String → Option β
  | [], _ => none
  | (k', v) :: rest, k => if k' = k then some v else lookupA rest k

/-- Association-list update: replace the value at an existing key in
place, or append a new binding at the end — exactly Python dict item
assignment. -/
def updateA {β : Type} : List (String × β) → String → β → List (String × β)
  | [], k, v => [(k, v)]
  | (k', v') :: rest, k, v =>
      if k' = k then (k, v) :: rest else (k', v') :: updateA rest k v

/-- The mutable per-run result state of `CloudAnalyzer.__init__` that the
merge loops touch: `categories` and `total_savings` (the timestamp and the
recommendations list play no part in merging). -/
structure RunState where
  categories : CategoryMap
  total_savings : Rat
deriving DecidableEq

/-- `CloudAnalyzer.__init__`: empty categories, `total_savings = 0`. -/
def initialRunState : RunState := { categories := [], total_savings := 0 }

/-- The body of one iteration of the merge loop in `_analyze_aws` (and the
identical loops of `_analyze_azure` / `_analyze_gcp`): the contribution a
payload adds to an existing (or fresh) bucket. -/
def addPayload (b : Bucket) (data : ProviderCategory) : Bucket :=
  { count := b.count + data.count.getD 0
  , savings := b.savings + data.savings.getD 0
  , items := b.items ++ data.items.getD [] }

/-- One iteration of the merge loop: create a fresh bucket if the category
is absent, add `data.get('count', 0)` and `data.get('savings', 0)`, extend
items with `data.get('items', [])`, and increment the running
`total_savings` by this payload's savings. -/
def mergeCategory (st : RunState) (category : String) (data : ProviderCategory) :
    RunState :=
  let b := (lookupA st.categories category).getD freshBucket
  { categories := updateA st.categories category (addPayload b data)
  , total_savings := st.total_savings + data.savings.getD 0 }

/-- The whole merge loop `for category, data in provider_results.items()`. -/
def mergeProviderResults (st : RunState) (results : ProviderResults) : RunState :=
  results.foldl (fun s e => mergeCategory s e.1 e.2) st

/-- A run: the sequence of provider merges applied, in call order, to the
initial state (`analyze` invokes `_analyze_aws`/`_analyze_azure`/
`_analyze_gcp` one after the other). -/
def mergeAll (st : RunState) (runs : List ProviderResults) : RunState :=
  runs.foldl mergeProviderResults st

/-! ### The insight engine (`insight_engine.py`) -/

/-- The category data the insight engine reads: it accesses only
`data.get('count', ...)` and `data.get('savings', ...)`, each possibly
missing. -/
structure CatData where
  count : Option Int
  savings : Option Rat
deriving DecidableEq

/-- The engine's category input: a Python dict, in insertion order. -/
abbrev Categories := List (String × CatData)

/-- One output record assembled by `_generate_basic_recommendations`. -/
structure Recommendation where
  category : String
  priority : String
  finding_count : Int
  total_savings : Rat
  average_savings_per_item : Rat
  remedy : String
  risk_level : String
  effort : String
deriving DecidableEq

/-- `_calculate_priority(savings, count)`: ordered threshold checks. -/
def calculate_priority (savings : Rat) (count : Int) : String :=
  if savings > 10000 ∨ count > 50 then "High"
  else if savings > 1000 ∨ count > 10 then "Medium"
  else "Low"

/-- The fixed remedy table of `_get_category_recommendation`. -/
def recommendationTable : List (String × String) :=
  [ ("EC2 Instances", "Review and rightsize or terminate idle instances")
  , ("EBS Volumes", "Delete unattached volumes or create snapshots")
  , ("Elastic IPs", "Release unattached Elastic IPs")
  , ("RDS Databases", "Downsize or use reserved instances for better pricing")
  , ("S3 Storage", "Implement lifecycle policies to optimize storage costs")
  , ("Virtual Machines", "Deallocate stopped VMs or resize active ones")
  , ("Managed Disks", "Clean up unattached disks")
  , ("Storage Accounts", "Optimize storage tier based on access patterns")
  , ("Compute Instances", "Review instance utilization and rightsizing")
  , ("Persistent Disks", "Remove unattached disks")
  , ("Cloud Storage", "Configure lifecycle management for automatic optimization") ]

/-- `_get_category_recommendation`: table lookup with the generic default
(`dict.get(category, 'Review and optimize resources')`). -/
def get_category_recommendation (category : String) : String :=
  (lookupA recommendationTable category).getD "Review and optimize resources"

/-- The `high_risk` list of `_assess_risk`. -/
def highRiskCategories : List String :=
  ["EC2 Instances", "RDS Databases", "Virtual Machines", "Compute Instances"]

/-- The `medium_risk` list of `_assess_risk`. -/
def mediumRiskCategories : List String :=
  ["EBS Volumes", "Managed Disks", "Persistent Disks"]

/-- `_assess_risk(category)`. -/
def assess_risk (category : String) : String :=
  if highRiskCategories.contains category then "Medium"
  else if mediumRiskCategories.contains category then "Low"
  else "Very Low"

/-- The `low_effort` list of `_assess_effort`. -/
def lowEffortCategories : List String :=
  ["Elastic IPs", "EBS Volumes", "Managed Disks", "Persistent Disks"]

/-- `_assess_effort(category)`. -/
def assess_effort (category : String) : String :=
  if lowEffortCategories.contains category then "Low" else "Medium"

/-- The record appended for one category with positive count inside
`_generate_basic_recommendations`; note the divisor is
`data.get('count', 1)` while every other read of the count defaults to 0,
exactly as in the source. -/
def buildRecommendation (category : String) (data : CatData) : Recommendation :=
  { category := category
  , priority := calculate_priority (data.savings.getD 0) (data.count.getD 0)
  , finding_count := data.count.getD 0
  , total_savings := data.savings.getD 0
  , average_savings_per_item := data.savings.getD 0 / ((data.count.getD 1 : Int) : Rat)
  , remedy := get_category_recommendation category
  , risk_level := assess_risk category
  , effort := assess_effort category }

/-- The loop of `_generate_basic_recommendations` before the final sort:
one record per category with `data.get('count', 0) > 0`, in dict
iteration order. -/
def unsortedRecommendations (categories : Categories) : List Recommendation :=
  categories.filterMap fun e =>
    if e.2.count.getD 0 > 0 then some (buildRecommendation e.1 e.2) else none

/-- Stable descending insertion on the `total_savings` key: the inserted
record goes after every already-placed record with strictly larger
savings and before the first with savings less than or equal to its own. -/
def insertBySavingsDesc (r : Recommendation) :
    List Recommendation → List Recommendation
  | [] => [r]
  | x :: xs =>
      if x.total_savings > r.total_savings then x :: insertBySavingsDesc r xs
      else r :: x :: xs

/-- Stable sort by `total_savings` descending, the model of
`recommendations.sort(key=lambda x: x['total_savings'], reverse=True)`
(Timsort is stable, and all stable sorts under the same key agree). -/
def sortBySavingsDesc : List Recommendation → List Recommendation
  | [] => []
  | x :: xs => insertBySavingsDesc x (sortBySavingsDesc xs)

/-- `_generate_basic_recommendations`. -/
def generate_basic_recommendations (categories : Categories) : List Recommendation :=
  sortBySavingsDesc (unsortedRecommendations categories)

/-- `_generate_ai_recommendations`: the enhanced path is a stub delegating
to the basic path. -/
def generate_ai_recommendations (categories : Categories) : List Recommendation :=
  generate_basic_recommendations categories

/-- The engine state set up by `InsightEngine.__init__`. -/
structure InsightEngine where
  model : String
  confidence_threshold : Rat
  enabled : Bool
  api_key : Option String
deriving DecidableEq

/-- The `ai` configuration dict: every key read with `config.get`. -/
structure AIConfig where
  model : Option String
  confidence_threshold : Option Rat
  enabled : Option Bool
deriving DecidableEq

/-- Python truth-test of `os.environ.get(...)`: `None` and the empty
string are falsy, any non-empty string is truthy. -/
def envKeyMissing : Option String → Bool
  | none => true
  | some s => s.isEmpty

/-- `InsightEngine.__init__`: read config with defaults, then disable the
enhanced mode when it was requested but `OPENAI_API_KEY` is unavailable
(`if self.enabled and not self.api_key: self.enabled = False`). -/
def InsightEngine.init (config : AIConfig) (env_openai_api_key : Option String) :
    InsightEngine :=
  let enabled0 := config.enabled.getD false
  { model := config.model.getD "gpt-4"
  , confidence_threshold := config.confidence_threshold.getD (7 / 10)
  , enabled := if enabled0 ∧ envKeyMissing env_openai_api_key then false else enabled0
  , api_key := env_openai_api_key }

/-- `enhance_recommendations`: basic path when disabled; otherwise the
enhanced path, whose stub delegates to the basic generator (the source's
`try/except` fallback also returns the basic output on failure, so every
branch yields a recommendation list and the call never raises). -/
def enhance_recommendations (e : InsightEngine) (categories : Categories) :
    List Recommendation :=
  if e.enabled then generate_ai_recommendations categories
  else generate_basic_recommendations categories

/-! ### Derived notions used to state the spec's properties -/

/-- The bucket a run state holds for a category, a fresh one when the
category is absent (this is exactly how the merge loop reads the map). -/
def bucketAt (st : RunState) (k : String) : Bucket :=
  (lookupA st.categories k).getD freshBucket

/-- Sum of `estimated_monthly_savings` over a list of findings. -/
def itemsSavings : List Finding → Rat
  | [] => 0
  | f :: rest => f.estimated_monthly_savings + itemsSavings rest

/-- Sum of the `savings` fields over all buckets of a category map. -/
def savingsSum : CategoryMap → Rat
  | [] => 0
  | e :: rest => e.2.savings + savingsSum rest

/-- The spec's Category Bucket invariant: `count == len(items)` and
`savings == sum(f.estimated_monthly_savings for f in items)`. -/
abbrev WellFormedBucket (b : Bucket) : Prop :=
  b.count = (b.items.length : Int) ∧ b.savings = itemsSavings b.items

/-- A well-formed provider payload: its (defaulted) count and savings
agree with its (defaulted) item list. -/
abbrev WellFormedPayload (p : ProviderCategory) : Prop :=
  p.count.getD 0 = ((p.items.getD []).length : Int) ∧
  p.savings.getD 0 = itemsSavings (p.items.getD [])

/-- The spec's Run Result invariant: every bucket is well formed and the
incrementally accumulated `total_savings` equals the sum of all bucket
savings. -/
abbrev StateInvariant (st : RunState) : Prop :=
  (∀ e ∈ st.categories, WellFormedBucket e.2) ∧
  st.total_savings = savingsSum st.categories

/-- Total count contributed to one category by a provider result list. -/
def catCountContribution : ProviderResults → String → Int
  | [], _ => 0
  | e :: rest, k =>
      (if e.1 = k then e.2.count.getD 0 else 0) + catCountContribution rest k

/-- Total savings contributed to one category by a provider result list. -/
def catSavingsContribution : ProviderResults → String → Rat
  | [], _ => 0
  | e :: rest, k =>
      (if e.1 = k then e.2.savings.getD 0 else 0) + catSavingsContribution rest k

/-- Items contributed to one category by a provider result list, in
iteration order. -/
def catItemsContribution : ProviderResults → String → List Finding
  | [], _ => []
  | e :: rest, k =>
      (if e.1 = k then e.2.items.getD [] else []) ++ catItemsContribution rest k

/-- The item sequence a provider result map carries for one category
(empty when the category or its `items` key is absent). -/
def payloadItemsAt (res : ProviderResults) (k : String) : List Finding :=
  ((lookupA res k).map fun p => p.items.getD []).getD []

/-- The end-to-end example input of spec §8: three categories with the
given counts and savings. -/
def exampleCategories : Categories :=
  [ ("EC2 Instances", { count := some 23, savings := some 18450 })
  , ("EBS Volumes", { count := some 156, savings := some 12340 })
  , ("Elastic IPs", { count := some 12, savings := some 43.2 }) ]

/-! ### Association-list lemmas -/

theorem lookupA_updateA_self {β : Type} (m : List (String × β)) (k : String) (v : β) :
    lookupA (updateA m k v) k = some v := by
  induction m with
  | nil => simp [updateA, lookupA]
  | cons e rest ih =>
      obtain ⟨k', v'⟩ := e
      by_cases hk : k' = k
      · simp [updateA, hk, lookupA]
      · simp [updateA, hk, lookupA, ih]

theorem lookupA_updateA_ne {β : Type} (m : List (String × β)) (k k' : String) (v : β)
    (h : k ≠ k') : lookupA (updateA m k v) k' = lookupA m k' := by
  induction m with
  | nil => simp [updateA, lookupA, h]
  | cons e rest ih =>
      obtain ⟨k0, v0⟩ := e
      by_cases hk : k0 = k
      · subst hk
        simp [updateA, lookupA, h]
      · simp [updateA, hk, lookupA, ih]

theorem mem_updateA {β : Type} (m : List (String × β)) (k : String) (v : β)
    (e : String × β) (h : e ∈ updateA m k v) : e = (k, v) ∨ e ∈ m := by
  induction m with
  | nil => simpa [updateA] using h
  | cons e0 rest ih =>
      obtain ⟨k0, v0⟩ := e0
      by_cases hk : k0 = k
      · simp [updateA, hk] at h
        rcases h with h | h
        · exact Or.inl h
        · exact Or.inr (List.mem_cons_of_mem _ h)
      · simp [updateA, hk] at h
        rcases h with h | h
        · exact Or.inr (by simp [h])
        · rcases ih h with h1 | h1
          · exact Or.inl h1
          · exact Or.inr (List.mem_cons_of_mem _ h1)

theorem lookupA_mem {β : Type} (m : List (String × β)) (k : String) (v : β)
    (h : lookupA m k = some v) : (k, v) ∈ m := by
  induction m with
  | nil => simp [lookupA] at h
  | cons e0 rest ih =>
      obtain ⟨k0, v0⟩ := e0
      by_cases hk : k0 = k
      · subst hk
        simp [lookupA] at h
        simp [h]
      · simp [lookupA, hk] at h
        exact List.mem_cons_of_mem _ (ih h)

/-! ### Claim theorems -/

/-- **C1.** `_calculate_priority` checks High, then Medium, then Low, in
exactly that order: it returns "High" when `savings > 10000 ∨ count > 50`,
otherwise "Medium" when `savings > 1000 ∨ count > 10`, otherwise "Low";
moreover the four boundary evaluations of the claim hold, so values
exactly at a threshold do not trigger that level. -/
theorem calculate_priority_spec :
    (∀ (s : Rat) (c : Int),
      ((s > 10000 ∨ c > 50) → calculate_priority s c = "High") ∧
      (¬(s > 10000 ∨ c > 50) → (s > 1000 ∨ c > 10) →
        calculate_priority s c = "Medium") ∧
      (¬(s > 10000 ∨ c > 50) → ¬(s > 1000 ∨ c > 10) →
        calculate_priority s c = "Low")) ∧
    calculate_priority 10001 0 = "High" ∧
    calculate_priority 0 51 = "High" ∧
    calculate_priority 1001 0 = "Medium" ∧
    calculate_priority 1000 10 = "Low" := by
  refine ⟨fun s c => ⟨?_, ?_, ?_⟩, by decide, by decide, by decide, by decide⟩
  · intro h
    simp [calculate_priority, h]
  · intro h1 h2
    simp [calculate_priority, h1, h2]
  · intro h1 h2
    simp [calculate_priority, h1, h2]

/-- Witness for C1: the conditional characterizations applied at concrete
inputs, each hypothesis discharged there. -/
theorem calculate_priority_spec_witness :
    calculate_priority 15000 5 = "High" ∧
    calculate_priority 500 60 = "High" ∧
    calculate_priority 5000 20 = "Medium" ∧
    calculate_priority 500 5 = "Low" :=
  ⟨(calculate_priority_spec.1 15000 5).1 (Or.inl (by norm_num)),
   (calculate_priority_spec.1 500 60).1 (Or.inr (by norm_num)),
   (calculate_priority_spec.1 5000 20).2.1 (by norm_num) (Or.inl (by norm_num)),
   (calculate_priority_spec.1 500 5).2.2 (by norm_num) (by norm_num)⟩

/-! ### Merge-loop lemmas -/

theorem mergeProviderResults_nil (st : RunState) :
    mergeProviderResults st [] = st := rfl

theorem mergeProviderResults_cons (st : RunState) (e : String × ProviderCategory)
    (rest : ProviderResults) :
    mergeProviderResults st (e :: rest)
      = mergeProviderResults (mergeCategory st e.1 e.2) rest := rfl

theorem lookupA_mergeProviderResults_not_mem (st : RunState) (res : ProviderResults)
    (k : String) (h : k ∉ res.map Prod.fst) :
    lookupA (mergeProviderResults st res).categories k = lookupA st.categories k := by
  induction res generalizing st with
  | nil => rfl
  | cons e rest ih =>
      obtain ⟨k0, p0⟩ := e
      have hne : k0 ≠ k := by
        intro hkk
        exact h (by simp [hkk])
      have hrest : k ∉ rest.map Prod.fst := by
        intro hk
        exact h (by simp [hk])
      rw [mergeProviderResults_cons, ih _ hrest]
      simp [mergeCategory, lookupA_updateA_ne _ _ _ _ hne]

/-- **C2.** For every current run state and every provider result map with
distinct category keys (a Python dict), the merge loop gives each category
key `k` of the map the bucket obtained by taking the existing bucket at
`k` — or the fresh bucket `{count:0, savings:0, items:[]}` when `k` is
absent — and adding the payload's defaulted count, adding its defaulted
savings, and appending its defaulted items after the existing ones; a
missing `count`/`savings`/`items` key contributes `0`/`0`/the empty list,
and the merge is a total function (it never fails). -/
theorem mergeProviderResults_per_category (st : RunState) (res : ProviderResults)
    (hnd : (res.map Prod.fst).Nodup) (k : String) (p : ProviderCategory)
    (hmem : (k, p) ∈ res) :
    lookupA (mergeProviderResults st res).categories k
      = some (addPayload ((lookupA st.categories k).getD freshBucket) p) := by
  induction res generalizing st with
  | nil => simp at hmem
  | cons e rest ih =>
      obtain ⟨k0, p0⟩ := e
      rw [List.map_cons, List.nodup_cons] at hnd
      have hk0 : k0 ∉ rest.map Prod.fst := hnd.1
      have hnd' : (rest.map Prod.fst).Nodup := hnd.2
      rcases List.mem_cons.mp hmem with heq | hmem'
      · injection heq with h1 h2
        subst h1
        subst h2
        rw [mergeProviderResults_cons,
          lookupA_mergeProviderResults_not_mem _ _ _ hk0]
        simp [mergeCategory, lookupA_updateA_self]
      · have hkne : k0 ≠ k := by
          intro hkk
          subst hkk
          exact hk0 (List.mem_map_of_mem Prod.fst hmem')
        have h2 := ih (mergeCategory st k0 p0) hnd' hmem'
        rw [mergeProviderResults_cons, h2]
        simp [mergeCategory, lookupA_updateA_ne _ _ _ _ hkne]

/-- Witness for C2: merging a two-category provider result into a state
that already holds one of the categories. -/
theorem mergeProviderResults_per_category_witness :
    (([("EC2 Instances", ({ count := some 2, savings := some 7, items := some [] } :
          ProviderCategory)),
       ("EBS Volumes", { count := none, savings := none, items := none })].map
        Prod.fst).Nodup ∧
      ("EBS Volumes",
        ({ count := none, savings := none, items := none } : ProviderCategory)) ∈
        [("EC2 Instances", ({ count := some 2, savings := some 7, items := some [] } :
            ProviderCategory)),
         ("EBS Volumes", { count := none, savings := none, items := none })]) ∧
    lookupA (mergeProviderResults
        { categories := [("EC2 Instances", { count := 1, savings := 5, items := [] })]
        , total_savings := 5 }
        [("EC2 Instances", { count := some 2, savings := some 7, items := some [] }),
         ("EBS Volumes", { count := none, savings := none, items := none })]).categories
      "EBS Volumes"
      = some (addPayload ((lookupA
          [("EC2 Instances", { count := 1, savings := 5, items := [] })]
          "EBS Volumes").getD freshBucket)
          { count := none, savings := none, items := none }) :=
  ⟨⟨by decide, by decide⟩,
    mergeProviderResults_per_category
      { categories := [("EC2 Instances", { count := 1, savings := 5, items := [] })]
      , total_savings := 5 }
      _ (by decide) "EBS Volumes" _ (by decide)⟩

/-! ### Invariant preservation -/

theorem itemsSavings_append (l1 l2 : List Finding) :
    itemsSavings (l1 ++ l2) = itemsSavings l1 + itemsSavings l2 := by
  induction l1 with
  | nil => simp [itemsSavings]
  | cons f rest ih => simp [itemsSavings, ih]; ring

theorem wellFormed_addPayload (b : Bucket) (p : ProviderCategory)
    (hb : WellFormedBucket b) (hp : WellFormedPayload p) :
    WellFormedBucket (addPayload b p) := by
  obtain ⟨hc, hs⟩ := hb
  obtain ⟨pc, ps⟩ := hp
  constructor
  · simp [addPayload, hc, pc, List.length_append]
  · simp [addPayload, hs, ps, itemsSavings_append]

theorem wellFormed_freshBucket : WellFormedBucket freshBucket := by
  constructor <;> rfl

theorem savingsSum_updateA (m : CategoryMap) (k : String) (p : ProviderCategory) :
    savingsSum (updateA m k (addPayload ((lookupA m k).getD freshBucket) p))
      = savingsSum m + p.savings.getD 0 := by
  induction m with
  | nil => simp [updateA, savingsSum, addPayload, freshBucket, lookupA]
  | cons e rest ih =>
      obtain ⟨k0, b0⟩ := e
      by_cases hk : k0 = k
      · subst hk
        simp [updateA, lookupA, savingsSum, addPayload]
        ring
      · simp [updateA, hk, lookupA, savingsSum, ih]
        ring

theorem mergeCategory_invariant (st : RunState) (k : String) (p : ProviderCategory)
    (hst : StateInvariant st) (hp : WellFormedPayload p) :
    StateInvariant (mergeCategory st k p) := by
  obtain ⟨hwf, htot⟩ := hst
  constructor
  · intro e he
    rcases mem_updateA _ _ _ _ he with heq | hmem
    · subst heq
      have hb : WellFormedBucket ((lookupA st.categories k).getD freshBucket) := by
        cases hlk : lookupA st.categories k with
        | none => simpa [hlk] using wellFormed_freshBucket
        | some b0 =>
            have := hwf (k, b0) (lookupA_mem _ _ _ hlk)
            simpa [hlk] using this
      exact wellFormed_addPayload _ _ hb hp
    · exact hwf e hmem
  · simp [mergeCategory, savingsSum_updateA, htot]

theorem mergeProviderResults_invariant (st : RunState) (res : ProviderResults)
    (hst : StateInvariant st) (hres : ∀ e ∈ res, WellFormedPayload e.2) :
    StateInvariant (mergeProviderResults st res) := by
  induction res generalizing st with
  | nil => exact hst
  | cons e rest ih =>
      rw [mergeProviderResults_cons]
      refine ih _ (mergeCategory_invariant _ _ _ hst (hres e (by simp))) ?_
      intro e' he'
      exact hres e' (List.mem_cons_of_mem _ he')

theorem initialRunState_invariant : StateInvariant initialRunState := by
  constructor
  · intro e he
    simp [initialRunState] at he
  · rfl

/-- **C3.** Starting from the initial run state (empty categories,
`total_savings = 0`), after every sequence of provider merges whose
payloads are well formed (each payload's count equals the length of its
item list and its savings equals the sum of its items' savings), every
category bucket satisfies `count = length(items)` and
`savings = sum(items.estimated_monthly_savings)`, and the incrementally
accumulated `total_savings` equals the sum of all buckets' savings. -/
theorem mergeAll_invariant (runs : List ProviderResults)
    (h : ∀ res ∈ runs, ∀ e ∈ res, WellFormedPayload e.2) :
    StateInvariant (mergeAll initialRunState runs) := by
  have haux : ∀ (rs : List ProviderResults) (st : RunState), StateInvariant st →
      (∀ res ∈ rs, ∀ e ∈ res, WellFormedPayload e.2) →
      StateInvariant (mergeAll st rs) := by
    intro rs
    induction rs with
    | nil => intro st hst _; exact hst
    | cons res rest ih =>
        intro st hst hall
        have h1 : StateInvariant (mergeProviderResults st res) :=
          mergeProviderResults_invariant st res hst (hall res (by simp))
        have h2 : ∀ r ∈ rest, ∀ e ∈ r, WellFormedPayload e.2 := by
          intro r hr
          exact hall r (List.mem_cons_of_mem _ hr)
        exact ih _ h1 h2
  exact haux runs initialRunState initialRunState_invariant h

/-- Witness for C3: two provider runs, each with one well-formed payload
carrying a concrete finding. -/
theorem mergeAll_invariant_witness :
    (∀ res ∈ [[("EC2 Instances",
        ({ count := some 1, savings := some 10
         , items := some [{ resource_id := "i-1", resource_type := "EC2 Instance"
                          , region := some "us-east-1", issue := "idle"
                          , remedy := "terminate"
                          , estimated_monthly_savings := 10
                          , confidence := 9 / 10 }] } : ProviderCategory))],
      [("EBS Volumes",
        ({ count := some 0, savings := some 0, items := some [] } :
          ProviderCategory))]],
      ∀ e ∈ res, WellFormedPayload e.2) ∧
    StateInvariant (mergeAll initialRunState
      [[("EC2 Instances",
        { count := some 1, savings := some 10
        , items := some [{ resource_id := "i-1", resource_type := "EC2 Instance"
                         , region := some "us-east-1", issue := "idle"
                         , remedy := "terminate"
                         , estimated_monthly_savings := 10
                         , confidence := 9 / 10 }] })],
       [("EBS Volumes",
        { count := some 0, savings := some 0, items := some [] })]]) :=
  ⟨by norm_num [WellFormedPayload, itemsSavings], mergeAll_invariant _ (by norm_num [WellFormedPayload, itemsSavings])⟩

/-! ### Merge-order accumulation -/

theorem bucketAt_mergeCategory (st : RunState) (k0 : String) (p : ProviderCategory)
    (k : String) :
    bucketAt (mergeCategory st k0 p) k
      = if k0 = k then addPayload (bucketAt st k) p else bucketAt st k := by
  by_cases h : k0 = k
  · subst h
    simp [bucketAt, mergeCategory, lookupA_updateA_self]
  · simp [bucketAt, mergeCategory, lookupA_updateA_ne _ _ _ _ h, h]

theorem bucketAt_mergeProviderResults_count (st : RunState) (res : ProviderResults)
    (k : String) :
    (bucketAt (mergeProviderResults st res) k).count
      = (bucketAt st k).count + catCountContribution res k := by
  induction res generalizing st with
  | nil => simp [mergeProviderResults_nil, catCountContribution]
  | cons e rest ih =>
      obtain ⟨k0, p⟩ := e
      rw [mergeProviderResults_cons, ih, bucketAt_mergeCategory]
      by_cases h : k0 = k
      · simp [catCountContribution, h, addPayload]
        ring
      · simp [catCountContribution, h]

theorem bucketAt_mergeProviderResults_savings (st : RunState) (res : ProviderResults)
    (k : String) :
    (bucketAt (mergeProviderResults st res) k).savings
      = (bucketAt st k).savings + catSavingsContribution res k := by
  induction res generalizing st with
  | nil => simp [mergeProviderResults_nil, catSavingsContribution]
  | cons e rest ih =>
      obtain ⟨k0, p⟩ := e
      rw [mergeProviderResults_cons, ih, bucketAt_mergeCategory]
      by_cases h : k0 = k
      · simp [catSavingsContribution, h, addPayload]
        ring
      · simp [catSavingsContribution, h]

theorem bucketAt_mergeProviderResults_items (st : RunState) (res : ProviderResults)
    (k : String) :
    (bucketAt (mergeProviderResults st res) k).items
      = (bucketAt st k).items ++ catItemsContribution res k := by
  induction res generalizing st with
  | nil => simp [mergeProviderResults_nil, catItemsContribution]
  | cons e rest ih =>
      obtain ⟨k0, p⟩ := e
      rw [mergeProviderResults_cons, ih, bucketAt_mergeCategory]
      by_cases h : k0 = k
      · simp [catItemsContribution, h, addPayload]
      · simp [catItemsContribution, h]

theorem catItemsContribution_of_not_mem (res : ProviderResults) (k : String)
    (h : k ∉ res.map Prod.fst) : catItemsContribution res k = [] := by
  induction res with
  | nil => rfl
  | cons e rest ih =>
      obtain ⟨k0, p⟩ := e
      have hne : k0 ≠ k := by
        intro hkk
        exact h (by simp [hkk])
      have hrest : k ∉ rest.map Prod.fst := by
        intro hk
        exact h (by simp [hk])
      simp [catItemsContribution, hne, ih hrest]

theorem catItemsContribution_eq_payloadItemsAt (res : ProviderResults) (k : String)
    (h : (res.map Prod.fst).Nodup) :
    catItemsContribution res k = payloadItemsAt res k := by
  induction res with
  | nil => rfl
  | cons e rest ih =>
      obtain ⟨k0, p⟩ := e
      rw [List.map_cons, List.nodup_cons] at h
      by_cases hk : k0 = k
      · subst hk
        simp [catItemsContribution, payloadItemsAt, lookupA,
          catItemsContribution_of_not_mem rest k0 h.1]
      · simp [catItemsContribution, payloadItemsAt, lookupA, hk]
        have := ih h.2
        simpa [payloadItemsAt] using this

theorem bucketAt_initialRunState (k : String) :
    bucketAt initialRunState k = freshBucket := rfl

/-- **C6.** For any two provider result maps `A` and `B` (with distinct
keys each, as Python dicts have), merging `A` then `B` into the empty
initial state yields the same per-category `count` and `savings` as
merging `B` then `A`; the per-category item sequence equals the
concatenation of the two payloads' item sequences in the order the merges
were applied. -/
theorem merge_call_order_sums (A B : ProviderResults) (k : String)
    (hA : (A.map Prod.fst).Nodup) (hB : (B.map Prod.fst).Nodup) :
    (bucketAt (mergeProviderResults (mergeProviderResults initialRunState A) B) k).count
      = (bucketAt (mergeProviderResults (mergeProviderResults initialRunState B) A) k).count ∧
    (bucketAt (mergeProviderResults (mergeProviderResults initialRunState A) B) k).savings
      = (bucketAt (mergeProviderResults (mergeProviderResults initialRunState B) A) k).savings ∧
    (bucketAt (mergeProviderResults (mergeProviderResults initialRunState A) B) k).items
      = payloadItemsAt A k ++ payloadItemsAt B k ∧
    (bucketAt (mergeProviderResults (mergeProviderResults initialRunState B) A) k).items
      = payloadItemsAt B k ++ payloadItemsAt A k := by
  refine ⟨?_, ?_, ?_, ?_⟩
  · rw [bucketAt_mergeProviderResults_count, bucketAt_mergeProviderResults_count,
      bucketAt_mergeProviderResults_count, bucketAt_mergeProviderResults_count,
      bucketAt_initialRunState]
    show freshBucket.count + catCountContribution A k + catCountContribution B k
      = freshBucket.count + catCountContribution B k + catCountContribution A k
    ring
  · rw [bucketAt_mergeProviderResults_savings, bucketAt_mergeProviderResults_savings,
      bucketAt_mergeProviderResults_savings, bucketAt_mergeProviderResults_savings,
      bucketAt_initialRunState]
    show freshBucket.savings + catSavingsContribution A k + catSavingsContribution B k
      = freshBucket.savings + catSavingsContribution B k + catSavingsContribution A k
    ring
  · rw [bucketAt_mergeProviderResults_items, bucketAt_mergeProviderResults_items,
      bucketAt_initialRunState,
      catItemsContribution_eq_payloadItemsAt A k hA,
      catItemsContribution_eq_payloadItemsAt B k hB]
    show freshBucket.items ++ payloadItemsAt A k ++ payloadItemsAt B k
      = payloadItemsAt A k ++ payloadItemsAt B k
    simp [freshBucket]
  · rw [bucketAt_mergeProviderResults_items, bucketAt_mergeProviderResults_items,
      bucketAt_initialRunState,
      catItemsContribution_eq_payloadItemsAt A k hA,
      catItemsContribution_eq_payloadItemsAt B k hB]
    show freshBucket.items ++ payloadItemsAt B k ++ payloadItemsAt A k
      = payloadItemsAt B k ++ payloadItemsAt A k
    simp [freshBucket]

/-- Witness for C6: two concrete provider result maps sharing one
category. -/
theorem merge_call_order_sums_witness :
    (([("EC2 Instances", ({ count := some 1, savings := some 5, items := some [] } :
          ProviderCategory)),
       ("EBS Volumes", { count := some 2, savings := some 3, items := none })].map
        Prod.fst).Nodup ∧
     ([("EC2 Instances", ({ count := some 4, savings := some 6, items := some [] } :
          ProviderCategory))].map Prod.fst).Nodup) ∧
    ((bucketAt (mergeProviderResults (mergeProviderResults initialRunState
        [("EC2 Instances", { count := some 1, savings := some 5, items := some [] }),
         ("EBS Volumes", { count := some 2, savings := some 3, items := none })])
        [("EC2 Instances", { count := some 4, savings := some 6, items := some [] })])
        "EC2 Instances").count
      = (bucketAt (mergeProviderResults (mergeProviderResults initialRunState
        [("EC2 Instances", { count := some 4, savings := some 6, items := some [] })])
        [("EC2 Instances", { count := some 1, savings := some 5, items := some [] }),
         ("EBS Volumes", { count := some 2, savings := some 3, items := none })])
        "EC2 Instances").count ∧
     (bucketAt (mergeProviderResults (mergeProviderResults initialRunState
        [("EC2 Instances", { count := some 1, savings := some 5, items := some [] }),
         ("EBS Volumes", { count := some 2, savings := some 3, items := none })])
        [("EC2 Instances", { count := some 4, savings := some 6, items := some [] })])
        "EC2 Instances").savings
      = (bucketAt (mergeProviderResults (mergeProviderResults initialRunState
        [("EC2 Instances", { count := some 4, savings := some 6, items := some [] })])
        [("EC2 Instances", { count := some 1, savings := some 5, items := some [] }),
         ("EBS Volumes", { count := some 2, savings := some 3, items := none })])
        "EC2 Instances").savings ∧
     (bucketAt (mergeProviderResults (mergeProviderResults initialRunState
        [("EC2 Instances", { count := some 1, savings := some 5, items := some [] }),
         ("EBS Volumes", { count := some 2, savings := some 3, items := none })])
        [("EC2 Instances", { count := some 4, savings := some 6, items := some [] })])
        "EC2 Instances").items
      = payloadItemsAt
          [("EC2 Instances", { count := some 1, savings := some 5, items := some [] }),
           ("EBS Volumes", { count := some 2, savings := some 3, items := none })]
          "EC2 Instances" ++
        payloadItemsAt
          [("EC2 Instances", { count := some 4, savings := some 6, items := some [] })]
          "EC2 Instances" ∧
     (bucketAt (mergeProviderResults (mergeProviderResults initialRunState
        [("EC2 Instances", { count := some 4, savings := some 6, items := some [] })])
        [("EC2 Instances", { count := some 1, savings := some 5, items := some [] }),
         ("EBS Volumes", { count := some 2, savings := some 3, items := none })])
        "EC2 Instances").items
      = payloadItemsAt
          [("EC2 Instances", { count := some 4, savings := some 6, items := some [] })]
          "EC2 Instances" ++
        payloadItemsAt
          [("EC2 Instances", { count := some 1, savings := some 5, items := some [] }),
           ("EBS Volumes", { count := some 2, savings := some 3, items := none })]
          "EC2 Instances") :=
  ⟨⟨by decide, by decide⟩,
    merge_call_order_sums
      [("EC2 Instances", { count := some 1, savings := some 5, items := some [] }),
       ("EBS Volumes", { count := some 2, savings := some 3, items := none })]
      [("EC2 Instances", { count := some 4, savings := some 6, items := some [] })]
      "EC2 Instances" (by decide) (by decide)⟩

/-! ### Insight-engine theorems -/

/-- **C4.** For every category input, constructing the engine with
enhanced (AI) mode requested in the configuration but with no usable
`OPENAI_API_KEY` in the environment, and then calling
`enhance_recommendations`, yields exactly the recommendation list of an
engine constructed with enhanced mode disabled entirely; the missing
credential only flips the mode off at construction time, and both paths
are total functions (no error is raised). -/
theorem enhance_fallback_no_credential (m : Option String) (ct : Option Rat)
    (env : Option String) (cats : Categories)
    (henv : envKeyMissing env = true) :
    enhance_recommendations
        (InsightEngine.init { model := m, confidence_threshold := ct
                            , enabled := some true } env) cats
      = enhance_recommendations
        (InsightEngine.init { model := m, confidence_threshold := ct
                            , enabled := some false } env) cats := by
  simp [InsightEngine.init, enhance_recommendations, henv,
    generate_ai_recommendations]

/-- Witness for C4: enhanced mode requested with the credential absent
from the environment, on a one-category input. -/
theorem enhance_fallback_no_credential_witness :
    envKeyMissing none = true ∧
    enhance_recommendations
        (InsightEngine.init { model := none, confidence_threshold := none
                            , enabled := some true } none)
        [("EC2 Instances", { count := some 1, savings := some 5 })]
      = enhance_recommendations
        (InsightEngine.init { model := none, confidence_threshold := none
                            , enabled := some false } none)
        [("EC2 Instances", { count := some 1, savings := some 5 })] :=
  ⟨rfl, enhance_fallback_no_credential none none none
    [("EC2 Instances", { count := some 1, savings := some 5 })] rfl⟩

/-! ### Sort lemmas -/

theorem mem_insertBySavingsDesc (r a : Recommendation) (l : List Recommendation) :
    a ∈ insertBySavingsDesc r l ↔ a = r ∨ a ∈ l := by
  induction l with
  | nil => simp [insertBySavingsDesc]
  | cons x xs ih =>
      by_cases h : x.total_savings > r.total_savings
      · simp [insertBySavingsDesc, h, ih]
        tauto
      · simp [insertBySavingsDesc, h]

theorem mem_sortBySavingsDesc (a : Recommendation) (l : List Recommendation) :
    a ∈ sortBySavingsDesc l ↔ a ∈ l := by
  induction l with
  | nil => simp [sortBySavingsDesc]
  | cons x xs ih =>
      simp [sortBySavingsDesc, mem_insertBySavingsDesc, ih]

theorem pairwise_insertBySavingsDesc (r : Recommendation) (l : List Recommendation)
    (h : List.Pairwise (fun a b => b.total_savings ≤ a.total_savings) l) :
    List.Pairwise (fun a b => b.total_savings ≤ a.total_savings)
      (insertBySavingsDesc r l) := by
  induction l with
  | nil => simp [insertBySavingsDesc]
  | cons x xs ih =>
      rw [List.pairwise_cons] at h
      by_cases hx : x.total_savings > r.total_savings
      · rw [insertBySavingsDesc]
        simp only [hx, if_pos]
        rw [List.pairwise_cons]
        constructor
        · intro a ha
          rcases (mem_insertBySavingsDesc r a xs).mp ha with rfl | ha'
          · exact le_of_lt hx
          · exact h.1 a ha'
        · exact ih h.2
      · rw [insertBySavingsDesc]
        simp only [hx, if_neg, not_false_iff]
        rw [List.pairwise_cons]
        constructor
        · intro a ha
          rcases List.mem_cons.mp ha with rfl | ha'
          · exact le_of_not_lt hx
          · exact le_trans (h.1 a ha') (le_of_not_lt hx)
        · rw [List.pairwise_cons]
          exact h

theorem pairwise_sortBySavingsDesc (l : List Recommendation) :
    List.Pairwise (fun a b => b.total_savings ≤ a.total_savings)
      (sortBySavingsDesc l) := by
  induction l with
  | nil => simp [sortBySavingsDesc]
  | cons x xs ih => exact pairwise_insertBySavingsDesc x _ ih

/-- **C5.** For every engine configuration and every category input, the
recommendation sequence returned by `enhance_recommendations` is sorted
by `total_savings` in descending order; the output is a function of the
input alone, so the tie-break order between entries of equal
`total_savings` is deterministic (the same input always yields the same
output order). -/
theorem enhance_recommendations_sorted (e : InsightEngine) (cats : Categories) :
    List.Pairwise (fun a b => b.total_savings ≤ a.total_savings)
      (enhance_recommendations e cats) := by
  rw [enhance_recommendations]
  by_cases h : e.enabled
  · simp only [h, if_pos]
    exact pairwise_sortBySavingsDesc _
  · simp only [h, if_neg, not_false_iff]
    exact pairwise_sortBySavingsDesc _

theorem filter_insertBySavingsDesc (r : Recommendation) (l : List Recommendation)
    (v : Rat) :
    (insertBySavingsDesc r l).filter (fun x => decide (x.total_savings = v))
      = if r.total_savings = v then
          r :: l.filter (fun x => decide (x.total_savings = v))
        else l.filter (fun x => decide (x.total_savings = v)) := by
  induction l with
  | nil =>
      by_cases hr : r.total_savings = v
      · simp [insertBySavingsDesc, List.filter, hr]
      · simp [insertBySavingsDesc, List.filter, hr]
  | cons x xs ih =>
      by_cases hx : x.total_savings > r.total_savings
      · rw [insertBySavingsDesc]
        simp only [hx, if_pos]
        by_cases hr : r.total_savings = v
        · have hxv : ¬ x.total_savings = v := by
            intro hv
            rw [hv, hr] at hx
            exact lt_irrefl v hx
          simp [List.filter_cons, hxv, ih, hr]
        · simp [List.filter_cons, ih, hr]
      · rw [insertBySavingsDesc]
        simp only [hx, if_neg, not_false_iff]
        by_cases hr : r.total_savings = v
        · simp [List.filter_cons, hr]
        · simp [List.filter_cons, hr]

theorem filter_sortBySavingsDesc (l : List Recommendation) (v : Rat) :
    (sortBySavingsDesc l).filter (fun x => decide (x.total_savings = v))
      = l.filter (fun x => decide (x.total_savings = v)) := by
  induction l with
  | nil => rfl
  | cons x xs ih =>
      rw [sortBySavingsDesc, filter_insertBySavingsDesc, ih]
      by_cases hx : x.total_savings = v
      · simp [List.filter_cons, hx]
      · simp [List.filter_cons, hx]

/-- **C10.** The final sort of `_generate_basic_recommendations` is
stable: for every category input and every savings value `v`, the
subsequence of output recommendations whose `total_savings` equals `v` is
exactly the subsequence of the unsorted recommendation list (which is
built in the input mapping's insertion/iteration order) whose
`total_savings` equals `v` — so entries with equal `total_savings` appear
in the output in category insertion order, a deterministic tie-break. -/
theorem generate_basic_recommendations_stable (cats : Categories) (v : Rat) :
    (generate_basic_recommendations cats).filter
        (fun x => decide (x.total_savings = v))
      = (unsortedRecommendations cats).filter
        (fun x => decide (x.total_savings = v)) := by
  rw [generate_basic_recommendations, filter_sortBySavingsDesc]

theorem nodup_keys_right_unique {β : Type} (l : List (String × β))
    (h : (l.map Prod.fst).Nodup) (k : String) (a b : β)
    (ha : (k, a) ∈ l) (hb : (k, b) ∈ l) : a = b := by
  induction l with
  | nil => simp at ha
  | cons e rest ih =>
      obtain ⟨k0, c⟩ := e
      rw [List.map_cons, List.nodup_cons] at h
      rcases List.mem_cons.mp ha with h1 | h1
      · rcases List.mem_cons.mp hb with h2 | h2
        · have := h1.trans h2.symm
          injection this
        · injection h1 with hk1 hv1
          subst hk1
          exact absurd (List.mem_map_of_mem Prod.fst h2) h.1
      · rcases List.mem_cons.mp hb with h2 | h2
        · injection h2 with hk2 hv2
          subst hk2
          exact absurd (List.mem_map_of_mem Prod.fst h1) h.1
        · exact ih h.2 h1 h2

/-- **C7.** For every category input with distinct keys (a Python dict):
a category whose defaulted count is not positive (count `0`, negative, or
a missing count key) contributes no Recommendation; and every
Recommendation in the output comes from a category with positive count,
whose `average_savings_per_item` equals its savings divided by that
count — a divisor that is never zero. -/
theorem zero_count_no_recommendation (cats : Categories)
    (hnd : (cats.map Prod.fst).Nodup) :
    (∀ k d, (k, d) ∈ cats → ¬ d.count.getD 0 > 0 →
      ∀ r ∈ generate_basic_recommendations cats, r.category ≠ k) ∧
    (∀ r ∈ generate_basic_recommendations cats, ∃ k d, (k, d) ∈ cats ∧
      r.category = k ∧ d.count.getD 0 > 0 ∧
      ((d.count.getD 0 : Int) : Rat) ≠ 0 ∧
      r.average_savings_per_item = d.savings.getD 0 / ((d.count.getD 0 : Int) : Rat)) := by
  have hmem : ∀ r ∈ generate_basic_recommendations cats, ∃ k d, (k, d) ∈ cats ∧
      r = buildRecommendation k d ∧ d.count.getD 0 > 0 := by
    intro r hr
    rw [generate_basic_recommendations, mem_sortBySavingsDesc] at hr
    rw [unsortedRecommendations, List.mem_filterMap] at hr
    obtain ⟨e, he, hfe⟩ := hr
    by_cases hc : e.2.count.getD 0 > 0
    · refine ⟨e.1, e.2, he, ?_, hc⟩
      simp only [hc, if_pos, Option.some.injEq] at hfe
      exact hfe.symm
    · simp [hc] at hfe
  constructor
  · intro k d hkd hd r hr hcat
    obtain ⟨k1, d1, hk1d1, hrb, hc1⟩ := hmem r hr
    have hk : k1 = k := by
      rw [hrb] at hcat
      exact hcat
    subst hk
    have hdd : d1 = d := nodup_keys_right_unique cats hnd k1 d1 d hk1d1 hkd
    subst hdd
    exact hd hc1
  · intro r hr
    obtain ⟨k, d, hkd, hrb, hc⟩ := hmem r hr
    obtain ⟨c, hdc, hcpos⟩ : ∃ c : Int, d.count = some c ∧ c > 0 := by
      cases hdc : d.count with
      | none =>
          rw [hdc] at hc
          simp at hc
      | some c =>
          rw [hdc] at hc
          exact ⟨c, rfl, by simpa using hc⟩
    refine ⟨k, d, hkd, ?_, hc, ?_, ?_⟩
    · rw [hrb]
      rfl
    · rw [hdc]
      show ((c : Int) : Rat) ≠ 0
      exact_mod_cast (show (c : Int) ≠ 0 by omega)
    · rw [hrb]
      simp [buildRecommendation, hdc]

/-- Witness for C7: one positive-count and one zero-count category. -/
theorem zero_count_no_recommendation_witness :
    (([("EC2 Instances", ({ count := some 2, savings := some 10 } : CatData)),
       ("EBS Volumes", { count := some 0, savings := some 5 })].map
        Prod.fst).Nodup) ∧
    ((∀ k d, (k, d) ∈
        [("EC2 Instances", ({ count := some 2, savings := some 10 } : CatData)),
         ("EBS Volumes", { count := some 0, savings := some 5 })] →
        ¬ d.count.getD 0 > 0 →
        ∀ r ∈ generate_basic_recommendations
          [("EC2 Instances", { count := some 2, savings := some 10 }),
           ("EBS Volumes", { count := some 0, savings := some 5 })],
          r.category ≠ k) ∧
     (∀ r ∈ generate_basic_recommendations
        [("EC2 Instances", { count := some 2, savings := some 10 }),
         ("EBS Volumes", { count := some 0, savings := some 5 })],
        ∃ k d, (k, d) ∈
          [("EC2 Instances", ({ count := some 2, savings := some 10 } : CatData)),
           ("EBS Volumes", { count := some 0, savings := some 5 })] ∧
          r.category = k ∧ d.count.getD 0 > 0 ∧
          ((d.count.getD 0 : Int) : Rat) ≠ 0 ∧
          r.average_savings_per_item
            = d.savings.getD 0 / ((d.count.getD 0 : Int) : Rat))) :=
  ⟨by decide,
    zero_count_no_recommendation
      [("EC2 Instances", { count := some 2, savings := some 10 }),
       ("EBS Volumes", { count := some 0, savings := some 5 })] (by decide)⟩

/-- **C8.** Every category name absent from the fixed remedy table and
from the fixed risk and effort membership lists yields the generic remedy
text "Review and optimize resources", risk level "Very Low" and effort
"Medium"; all three lookups are total functions, so they never fail for
any category name. -/
theorem unknown_category_defaults (k : String)
    (h1 : lookupA recommendationTable k = none)
    (h2 : highRiskCategories.contains k = false)
    (h3 : mediumRiskCategories.contains k = false)
    (h4 : lowEffortCategories.contains k = false) :
    get_category_recommendation k = "Review and optimize resources" ∧
    assess_risk k = "Very Low" ∧
    assess_effort k = "Medium" := by
  have h2m : k ∉ highRiskCategories := by simpa using h2
  have h3m : k ∉ mediumRiskCategories := by simpa using h3
  have h4m : k ∉ lowEffortCategories := by simpa using h4
  refine ⟨?_, ?_, ?_⟩
  · rw [get_category_recommendation, h1]
    rfl
  · rw [assess_risk]
    simp [h2m, h3m]
  · rw [assess_effort]
    simp [h4m]

/-- Witness for C8: the category name "Lambda Functions" is in none of
the fixed tables. -/
theorem unknown_category_defaults_witness :
    (lookupA recommendationTable "Lambda Functions" = none ∧
     highRiskCategories.contains "Lambda Functions" = false ∧
     mediumRiskCategories.contains "Lambda Functions" = false ∧
     lowEffortCategories.contains "Lambda Functions" = false) ∧
    (get_category_recommendation "Lambda Functions"
        = "Review and optimize resources" ∧
     assess_risk "Lambda Functions" = "Very Low" ∧
     assess_effort "Lambda Functions" = "Medium") :=
  ⟨⟨by decide, by decide, by decide, by decide⟩,
    unknown_category_defaults "Lambda Functions"
      (by decide) (by decide) (by decide) (by decide)⟩

/-- **C9, counterexample.** On the end-to-end example input of spec §8
the engine's priorities are High, High, Medium — not the claimed
High, High, Low: `_calculate_priority(43.2, 12)` takes the Medium branch
because `count = 12 > 10`, so the priority list differs from the claim at
the third entry. -/
theorem end_to_end_example_claim_false :
    (generate_basic_recommendations exampleCategories).map
        Recommendation.priority = ["High", "High", "Medium"] ∧
    ¬ (generate_basic_recommendations exampleCategories).map
        Recommendation.priority = ["High", "High", "Low"] := by
  have hout : (generate_basic_recommendations exampleCategories).map
      Recommendation.priority = ["High", "High", "Medium"] := by
    rw [generate_basic_recommendations, exampleCategories, unsortedRecommendations]
    norm_num [List.filterMap, buildRecommendation, calculate_priority,
      sortBySavingsDesc, insertBySavingsDesc]
  refine ⟨hout, ?_⟩
  rw [hout]
  intro hcontra
  have : "Medium" = "Low" := by
    injection hcontra with ha hb
    injection hb with hc hd
    injection hd
  exact absurd this (by decide)

/-- **C9, amended.** On the end-to-end example input of spec §8 the engine
yields recommendations ordered EC2 Instances, EBS Volumes, Elastic IPs
with priorities High, High, Medium respectively. -/
theorem end_to_end_example_amended :
    (generate_basic_recommendations exampleCategories).map
        Recommendation.category
      = ["EC2 Instances", "EBS Volumes", "Elastic IPs"] ∧
    (generate_basic_recommendations exampleCategories).map
        Recommendation.priority = ["High", "High", "Medium"] := by
  rw [generate_basic_recommendations, exampleCategories, unsortedRecommendations]
  constructor <;>
    norm_num [List.filterMap, buildRecommendation, calculate_priority,
      sortBySavingsDesc, insertBySavingsDesc]

end CloudEconomizer
